import Mathlib

set_option maxRecDepth 8000

/-!
Shallow embedding of `src/crypto/ark.rs` from the rust-pvss repository.

The Rust file is a thin wrapper around an external elliptic-curve library
(BLS12-381: scalar field `Fr` of prime order `blsR`, curve group `G1` over the
base field of prime characteristic `blsP`), an external SHA-256 digest, and an
external seeded pseudo-random generator (`StdRng`).  The wrapper code itself
(types `Scalar`, `Point`, `PrivateKey`, `PublicKey` and their methods) is
translated here definition by definition.  The external collaborators are not
part of the repository; each of their models below is marked `Modelled from
the spec:` and follows the specification's stated contract for them.
-/

namespace RustPvss

/-- Order of the BLS12-381 scalar field `Fr` (the `BigInt381` type of the
source); a 255-bit prime. -/
def blsR : Nat :=
  0x73eda753299d7d483339d80809a1d80553bda402fffe5bfeffffffff00000001

/-- Characteristic of the BLS12-381 base field (coordinates of `G1` points);
a 381-bit prime. -/
def blsP : Nat :=
  0x1a0111ea397fe69a4b1ba7b6434bacd764774b84f38512bf6730d2a0f6b0f6241eabfffeb153ffffb9feffffffffaaab

instance : NeZero blsR := ⟨by decide⟩

instance : NeZero blsP := ⟨by decide⟩

instance : Fact (1 < blsR) := ⟨by decide⟩

instance : Fact (1 < blsP) := ⟨by decide⟩

/-- The scalar field: `type BigInt381 = <Bls12_381 as PairingEngine>::Fr` of
the source, an element of the integers modulo `blsR`. -/
abbrev Fr := ZMod blsR

/-- The base field carrying the affine coordinates of `G1` points. -/
abbrev Fp := ZMod blsP

/-- Little-endian interpretation of a byte string as a natural number. -/
def bytesToNatLE (bytes : List UInt8) : Nat :=
  bytes.foldr (fun b acc => b.toNat + 256 * acc) 0

/-- Little-endian encoding of a natural number into exactly `k` bytes
(truncating above `256 ^ k`). -/
def natToBytesLE : Nat → Nat → List UInt8
  | 0, _ => []
  | k + 1, v => UInt8.ofNat (v % 256) :: natToBytesLE k (v / 256)

theorem natToBytesLE_length (k v : Nat) : (natToBytesLE k v).length = k := by
  induction k generalizing v with
  | zero => rfl
  | succ k ih => simp [natToBytesLE, ih]

theorem toNat_ofNat_uint8 (n : Nat) : (UInt8.ofNat n).toNat = n % 256 := rfl

theorem ofNat_toNat_uint8 (b : UInt8) : UInt8.ofNat b.toNat = b := by
  apply UInt8.ext
  rw [toNat_ofNat_uint8, Nat.mod_eq_of_lt b.toNat_lt]

theorem bytesToNatLE_natToBytesLE (k v : Nat) (h : v < 256 ^ k) :
    bytesToNatLE (natToBytesLE k v) = v := by
  induction k generalizing v with
  | zero =>
    interval_cases v
    rfl
  | succ k ih =>
    have hdiv : v / 256 < 256 ^ k := by
      rw [Nat.div_lt_iff_lt_mul (by norm_num)]
      calc v < 256 ^ (k + 1) := h
      _ = 256 ^ k * 256 := by ring
    simp only [natToBytesLE, bytesToNatLE, List.foldr_cons]
    have : bytesToNatLE (natToBytesLE k (v / 256)) = v / 256 := ih _ hdiv
    simp only [bytesToNatLE] at this
    rw [this, toNat_ofNat_uint8]
    omega

theorem natToBytesLE_bytesToNatLE (bytes : List UInt8) :
    natToBytesLE bytes.length (bytesToNatLE bytes) = bytes := by
  induction bytes with
  | nil => rfl
  | cons b rest ih =>
    simp only [bytesToNatLE, List.foldr_cons, List.length_cons, natToBytesLE]
    have hb : b.toNat < 256 := b.toNat_lt
    have hmod : (b.toNat + 256 * bytesToNatLE rest) % 256 = b.toNat := by
      omega
    have hdiv : (b.toNat + 256 * bytesToNatLE rest) / 256 = bytesToNatLE rest := by
      omega
    simp only [bytesToNatLE] at hmod hdiv
    rw [hmod, hdiv, ofNat_toNat_uint8]
    simp only [bytesToNatLE] at ih
    rw [ih]

theorem bytesToNatLE_lt (bytes : List UInt8) :
    bytesToNatLE bytes < 256 ^ bytes.length := by
  induction bytes with
  | nil => simp [bytesToNatLE]
  | cons b rest ih =>
    simp only [bytesToNatLE, List.foldr_cons, List.length_cons, pow_succ]
    have hb : b.toNat < 256 := b.toNat_lt
    simp only [bytesToNatLE] at ih
    calc b.toNat + 256 * rest.foldr (fun b acc => b.toNat + 256 * acc) 0
        < 256 + 256 * rest.foldr (fun b acc => b.toNat + 256 * acc) 0 := by omega
      _ ≤ 256 * 256 ^ rest.length := by nlinarith
      _ = 256 ^ rest.length * 256 := by ring

theorem take_append_of_length {α : Type} (n : Nat) (l₁ l₂ : List α)
    (h : l₁.length = n) : (l₁ ++ l₂).take n = l₁ := by
  subst h
  induction l₁ with
  | nil => rfl
  | cons a t ih => simp [ih]

theorem drop_append_of_length {α : Type} (n : Nat) (l₁ l₂ : List α)
    (h : l₁.length = n) : (l₁ ++ l₂).drop n = l₂ := by
  subst h
  induction l₁ with
  | nil => rfl
  | cons a t ih => simp [ih]

/-- Fuel-bounded binary modular exponentiation, used to certify the primality
of `blsR` through a Lucas certificate. -/
def powModAux : Nat → Nat → Nat → Nat → Nat
  | 0, _, _, n => 1 % n
  | fuel + 1, a, k, n =>
    if k = 0 then 1 % n
    else
      let h := powModAux fuel a (k / 2) n
      let h2 := h * h % n
      if k % 2 = 0 then h2 else h2 * (a % n) % n

def powMod (a k n : Nat) : Nat := powModAux 256 a k n

theorem powModAux_correct (fuel : Nat) :
    ∀ a k n : Nat, 0 < n → k < 2 ^ fuel → powModAux fuel a k n = a ^ k % n := by
  induction fuel with
  | zero =>
    intro a k n hn hk
    interval_cases k
    simp [powModAux]
  | succ fuel ih =>
    intro a k n hn hk
    by_cases h0 : k = 0
    · subst h0; simp [powModAux]
    · have hk2 : k / 2 < 2 ^ fuel := by
        rw [Nat.div_lt_iff_lt_mul (by norm_num)]
        calc k < 2 ^ (fuel + 1) := hk
          _ = 2 ^ fuel * 2 := by ring
      simp only [powModAux, if_neg h0]
      rw [ih a (k / 2) n hn hk2]
      by_cases hpar : k % 2 = 0
      · simp only [if_pos hpar]
        calc a ^ (k / 2) % n * (a ^ (k / 2) % n) % n
            = a ^ (k / 2) * a ^ (k / 2) % n := (Nat.mul_mod _ _ _).symm
          _ = a ^ (k / 2 + k / 2) % n := by rw [pow_add]
          _ = a ^ k % n := by rw [show k / 2 + k / 2 = k by omega]
      · simp only [if_neg hpar]
        calc a ^ (k / 2) % n * (a ^ (k / 2) % n) % n * (a % n) % n
            = a ^ (k / 2) * a ^ (k / 2) % n * (a % n) % n := by
              rw [Nat.mul_mod (a ^ (k / 2)) (a ^ (k / 2)) n]
          _ = a ^ (k / 2) * a ^ (k / 2) * a % n := by
              rw [Nat.mul_mod (a ^ (k / 2) * a ^ (k / 2)) a n]
          _ = a ^ (k / 2 + k / 2 + 1) % n := by rw [pow_add, pow_add, pow_one]
          _ = a ^ k % n := by rw [show k / 2 + k / 2 + 1 = k by omega]

theorem powMod_correct (a k n : Nat) (hn : 0 < n) (hk : k < 2 ^ 256) :
    powMod a k n = a ^ k % n :=
  powModAux_correct 256 a k n hn hk

theorem castPowMod (a k : Nat) (hk : k < 2 ^ 256) :
    ((powMod a k blsR : Nat) : Fr) = (a : Fr) ^ k := by
  rw [powMod_correct a k blsR (by decide) hk, ZMod.natCast_mod, Nat.cast_pow]

theorem lucas_helper (q : Nat) (h1 : powMod 7 ((blsR - 1) / q) blsR ≠ 1) :
    (7 : ZMod blsR) ^ ((blsR - 1) / q) ≠ 1 := by
  intro hcontra
  apply h1
  have hb : (blsR - 1) / q < 2 ^ 256 :=
    lt_of_le_of_lt (Nat.div_le_self _ _) (by decide)
  have hcast : ((powMod 7 ((blsR - 1) / q) blsR : Nat) : Fr) =
      (7 : ZMod blsR) ^ ((blsR - 1) / q) := by
    rw [castPowMod 7 _ hb]
    norm_num
  rw [hcontra] at hcast
  have hlt : powMod 7 ((blsR - 1) / q) blsR < blsR := by
    rw [powMod_correct _ _ _ (by decide) hb]
    exact Nat.mod_lt _ (by decide)
  have hval := congrArg ZMod.val hcast
  rwa [ZMod.val_cast_of_lt hlt, ZMod.val_one] at hval

theorem powMod_lt (a k n : Nat) (hn : 0 < n) (hk : k < 2 ^ 256) :
    powMod a k n < n := by
  rw [powMod_correct a k n hn hk]
  exact Nat.mod_lt _ hn

theorem zmod_pow_cast (a k n : Nat) (hn : 0 < n) (hk : k < 2 ^ 256) :
    ((powMod a k n : Nat) : ZMod n) = ((a : Nat) : ZMod n) ^ k := by
  rw [powMod_correct a k n hn hk, ZMod.natCast_mod, Nat.cast_pow]

theorem powMod_eq_one (a k n : Nat) (hn : 1 < n) (hk : k < 2 ^ 256)
    (h1 : powMod a k n = 1) : ((a : Nat) : ZMod n) ^ k = 1 := by
  rw [← zmod_pow_cast a k n (lt_trans one_pos hn) hk, h1, Nat.cast_one]

theorem powMod_ne_one (a k n : Nat) (hn : 1 < n) (hk : k < 2 ^ 256)
    (h1 : powMod a k n ≠ 1) : ((a : Nat) : ZMod n) ^ k ≠ 1 := by
  intro hc
  apply h1
  have hn0 : 0 < n := lt_trans one_pos hn
  have hcast := zmod_pow_cast a k n hn0 hk
  rw [hc] at hcast
  have hval := congrArg ZMod.val hcast
  rwa [ZMod.val_cast_of_lt (powMod_lt a k n hn0 hk), ZMod.val_one'' (by omega)] at hval

theorem prime_10177 : Nat.Prime 10177 := by
  have hf : (10177 : Nat) - 1 = 2 ^ 6 * (3 * (53)) := by norm_num
  apply lucas_primality 10177 ((7 : Nat) : ZMod 10177)
  · exact powMod_eq_one 7 (10177 - 1) 10177 (by norm_num) (by decide) (by decide)
  · intro q hq hdvd
    rw [hf] at hdvd
    rcases (Nat.Prime.dvd_mul hq).mp hdvd with h | h
    ·
      have hqe : q = 2 := (Nat.prime_dvd_prime_iff_eq hq Nat.prime_two).mp (hq.dvd_of_dvd_pow h)
      subst hqe
      exact powMod_ne_one 7 ((10177 - 1) / 2) 10177 (by norm_num) (by decide) (by decide)
    rcases (Nat.Prime.dvd_mul hq).mp h with h | h
    ·
      have hqe : q = 3 := (Nat.prime_dvd_prime_iff_eq hq Nat.prime_three).mp h
      subst hqe
      exact powMod_ne_one 7 ((10177 - 1) / 3) 10177 (by norm_num) (by decide) (by decide)
    ·
      have hqe : q = 53 := (Nat.prime_dvd_prime_iff_eq hq (by norm_num)).mp h
      subst hqe
      exact powMod_ne_one 7 ((10177 - 1) / 53) 10177 (by norm_num) (by decide) (by decide)

theorem prime_20921 : Nat.Prime 20921 := by
  have hf : (20921 : Nat) - 1 = 2 ^ 3 * (5 * (523)) := by norm_num
  apply lucas_primality 20921 ((3 : Nat) : ZMod 20921)
  · exact powMod_eq_one 3 (20921 - 1) 20921 (by norm_num) (by decide) (by decide)
  · intro q hq hdvd
    rw [hf] at hdvd
    rcases (Nat.Prime.dvd_mul hq).mp hdvd with h | h
    ·
      have hqe : q = 2 := (Nat.prime_dvd_prime_iff_eq hq Nat.prime_two).mp (hq.dvd_of_dvd_pow h)
      subst hqe
      exact powMod_ne_one 3 ((20921 - 1) / 2) 20921 (by norm_num) (by decide) (by decide)
    rcases (Nat.Prime.dvd_mul hq).mp h with h | h
    ·
      have hqe : q = 5 := (Nat.prime_dvd_prime_iff_eq hq (by norm_num)).mp h
      subst hqe
      exact powMod_ne_one 3 ((20921 - 1) / 5) 20921 (by norm_num) (by decide) (by decide)
    ·
      have hqe : q = 523 := (Nat.prime_dvd_prime_iff_eq hq (by norm_num)).mp h
      subst hqe
      exact powMod_ne_one 3 ((20921 - 1) / 523) 20921 (by norm_num) (by decide) (by decide)

theorem prime_125527 : Nat.Prime 125527 := by
  have hf : (125527 : Nat) - 1 = 2 * (3 * (20921)) := by norm_num
  apply lucas_primality 125527 ((5 : Nat) : ZMod 125527)
  · exact powMod_eq_one 5 (125527 - 1) 125527 (by norm_num) (by decide) (by decide)
  · intro q hq hdvd
    rw [hf] at hdvd
    rcases (Nat.Prime.dvd_mul hq).mp hdvd with h | h
    ·
      have hqe : q = 2 := (Nat.prime_dvd_prime_iff_eq hq Nat.prime_two).mp h
      subst hqe
      exact powMod_ne_one 5 ((125527 - 1) / 2) 125527 (by norm_num) (by decide) (by decide)
    rcases (Nat.Prime.dvd_mul hq).mp h with h | h
    ·
      have hqe : q = 3 := (Nat.prime_dvd_prime_iff_eq hq Nat.prime_three).mp h
      subst hqe
      exact powMod_ne_one 5 ((125527 - 1) / 3) 125527 (by norm_num) (by decide) (by decide)
    ·
      have hqe : q = 20921 := (Nat.prime_dvd_prime_iff_eq hq prime_20921).mp h
      subst hqe
      exact powMod_ne_one 5 ((125527 - 1) / 20921) 125527 (by norm_num) (by decide) (by decide)

theorem prime_47737 : Nat.Prime 47737 := by
  have hf : (47737 : Nat) - 1 = 2 ^ 3 * (3 ^ 3 * (13 * (17))) := by norm_num
  apply lucas_primality 47737 ((5 : Nat) : ZMod 47737)
  · exact powMod_eq_one 5 (47737 - 1) 47737 (by norm_num) (by decide) (by decide)
  · intro q hq hdvd
    rw [hf] at hdvd
    rcases (Nat.Prime.dvd_mul hq).mp hdvd with h | h
    ·
      have hqe : q = 2 := (Nat.prime_dvd_prime_iff_eq hq Nat.prime_two).mp (hq.dvd_of_dvd_pow h)
      subst hqe
      exact powMod_ne_one 5 ((47737 - 1) / 2) 47737 (by norm_num) (by decide) (by decide)
    rcases (Nat.Prime.dvd_mul hq).mp h with h | h
    ·
      have hqe : q = 3 := (Nat.prime_dvd_prime_iff_eq hq Nat.prime_three).mp (hq.dvd_of_dvd_pow h)
      subst hqe
      exact powMod_ne_one 5 ((47737 - 1) / 3) 47737 (by norm_num) (by decide) (by decide)
    rcases (Nat.Prime.dvd_mul hq).mp h with h | h
    ·
      have hqe : q = 13 := (Nat.prime_dvd_prime_iff_eq hq (by norm_num)).mp h
      subst hqe
      exact powMod_ne_one 5 ((47737 - 1) / 13) 47737 (by norm_num) (by decide) (by decide)
    ·
      have hqe : q = 17 := (Nat.prime_dvd_prime_iff_eq hq (by norm_num)).mp h
      subst hqe
      exact powMod_ne_one 5 ((47737 - 1) / 17) 47737 (by norm_num) (by decide) (by decide)

theorem prime_859267 : Nat.Prime 859267 := by
  have hf : (859267 : Nat) - 1 = 2 * (3 ^ 2 * (47737)) := by norm_num
  apply lucas_primality 859267 ((2 : Nat) : ZMod 859267)
  · exact powMod_eq_one 2 (859267 - 1) 859267 (by norm_num) (by decide) (by decide)
  · intro q hq hdvd
    rw [hf] at hdvd
    rcases (Nat.Prime.dvd_mul hq).mp hdvd with h | h
    ·
      have hqe : q = 2 := (Nat.prime_dvd_prime_iff_eq hq Nat.prime_two).mp h
      subst hqe
      exact powMod_ne_one 2 ((859267 - 1) / 2) 859267 (by norm_num) (by decide) (by decide)
    rcases (Nat.Prime.dvd_mul hq).mp h with h | h
    ·
      have hqe : q = 3 := (Nat.prime_dvd_prime_iff_eq hq Nat.prime_three).mp (hq.dvd_of_dvd_pow h)
      subst hqe
      exact powMod_ne_one 2 ((859267 - 1) / 3) 859267 (by norm_num) (by decide) (by decide)
    ·
      have hqe : q = 47737 := (Nat.prime_dvd_prime_iff_eq hq prime_47737).mp h
      subst hqe
      exact powMod_ne_one 2 ((859267 - 1) / 47737) 859267 (by norm_num) (by decide) (by decide)

theorem prime_906349 : Nat.Prime 906349 := by
  have hf : (906349 : Nat) - 1 = 2 ^ 2 * (3 * (47 * (1607))) := by norm_num
  apply lucas_primality 906349 ((2 : Nat) : ZMod 906349)
  · exact powMod_eq_one 2 (906349 - 1) 906349 (by norm_num) (by decide) (by decide)
  · intro q hq hdvd
    rw [hf] at hdvd
    rcases (Nat.Prime.dvd_mul hq).mp hdvd with h | h
    ·
      have hqe : q = 2 := (Nat.prime_dvd_prime_iff_eq hq Nat.prime_two).mp (hq.dvd_of_dvd_pow h)
      subst hqe
      exact powMod_ne_one 2 ((906349 - 1) / 2) 906349 (by norm_num) (by decide) (by decide)
    rcases (Nat.Prime.dvd_mul hq).mp h with h | h
    ·
      have hqe : q = 3 := (Nat.prime_dvd_prime_iff_eq hq Nat.prime_three).mp h
      subst hqe
      exact powMod_ne_one 2 ((906349 - 1) / 3) 906349 (by norm_num) (by decide) (by decide)
    rcases (Nat.Prime.dvd_mul hq).mp h with h | h
    ·
      have hqe : q = 47 := (Nat.prime_dvd_prime_iff_eq hq (by norm_num)).mp h
      subst hqe
      exact powMod_ne_one 2 ((906349 - 1) / 47) 906349 (by norm_num) (by decide) (by decide)
    ·
      have hqe : q = 1607 := (Nat.prime_dvd_prime_iff_eq hq (by norm_num)).mp h
      subst hqe
      exact powMod_ne_one 2 ((906349 - 1) / 1607) 906349 (by norm_num) (by decide) (by decide)

theorem prime_2508409 : Nat.Prime 2508409 := by
  have hf : (2508409 : Nat) - 1 = 2 ^ 3 * (3 ^ 4 * (7 ^ 2 * (79))) := by norm_num
  apply lucas_primality 2508409 ((11 : Nat) : ZMod 2508409)
  · exact powMod_eq_one 11 (2508409 - 1) 2508409 (by norm_num) (by decide) (by decide)
  · intro q hq hdvd
    rw [hf] at hdvd
    rcases (Nat.Prime.dvd_mul hq).mp hdvd with h | h
    ·
      have hqe : q = 2 := (Nat.prime_dvd_prime_iff_eq hq Nat.prime_two).mp (hq.dvd_of_dvd_pow h)
      subst hqe
      exact powMod_ne_one 11 ((2508409 - 1) / 2) 2508409 (by norm_num) (by decide) (by decide)
    rcases (Nat.Prime.dvd_mul hq).mp h with h | h
    ·
      have hqe : q = 3 := (Nat.prime_dvd_prime_iff_eq hq Nat.prime_three).mp (hq.dvd_of_dvd_pow h)
      subst hqe
      exact powMod_ne_one 11 ((2508409 - 1) / 3) 2508409 (by norm_num) (by decide) (by decide)
    rcases (Nat.Prime.dvd_mul hq).mp h with h | h
    ·
      have hqe : q = 7 := (Nat.prime_dvd_prime_iff_eq hq (by norm_num)).mp (hq.dvd_of_dvd_pow h)
      subst hqe
      exact powMod_ne_one 11 ((2508409 - 1) / 7) 2508409 (by norm_num) (by decide) (by decide)
    ·
      have hqe : q = 79 := (Nat.prime_dvd_prime_iff_eq hq (by norm_num)).mp h
      subst hqe
      exact powMod_ne_one 11 ((2508409 - 1) / 79) 2508409 (by norm_num) (by decide) (by decide)

theorem prime_18329 : Nat.Prime 18329 := by
  have hf : (18329 : Nat) - 1 = 2 ^ 3 * (29 * (79)) := by norm_num
  apply lucas_primality 18329 ((3 : Nat) : ZMod 18329)
  · exact powMod_eq_one 3 (18329 - 1) 18329 (by norm_num) (by decide) (by decide)
  · intro q hq hdvd
    rw [hf] at hdvd
    rcases (Nat.Prime.dvd_mul hq).mp hdvd with h | h
    ·
      have hqe : q = 2 := (Nat.prime_dvd_prime_iff_eq hq Nat.prime_two).mp (hq.dvd_of_dvd_pow h)
      subst hqe
      exact powMod_ne_one 3 ((18329 - 1) / 2) 18329 (by norm_num) (by decide) (by decide)
    rcases (Nat.Prime.dvd_mul hq).mp h with h | h
    ·
      have hqe : q = 29 := (Nat.prime_dvd_prime_iff_eq hq (by norm_num)).mp h
      subst hqe
      exact powMod_ne_one 3 ((18329 - 1) / 29) 18329 (by norm_num) (by decide) (by decide)
    ·
      have hqe : q = 79 := (Nat.prime_dvd_prime_iff_eq hq (by norm_num)).mp h
      subst hqe
      exact powMod_ne_one 3 ((18329 - 1) / 79) 18329 (by norm_num) (by decide) (by decide)

theorem prime_2529403 : Nat.Prime 2529403 := by
  have hf : (2529403 : Nat) - 1 = 2 * (3 * (23 * (18329))) := by norm_num
  apply lucas_primality 2529403 ((2 : Nat) : ZMod 2529403)
  · exact powMod_eq_one 2 (2529403 - 1) 2529403 (by norm_num) (by decide) (by decide)
  · intro q hq hdvd
    rw [hf] at hdvd
    rcases (Nat.Prime.dvd_mul hq).mp hdvd with h | h
    ·
      have hqe : q = 2 := (Nat.prime_dvd_prime_iff_eq hq Nat.prime_two).mp h
      subst hqe
      exact powMod_ne_one 2 ((2529403 - 1) / 2) 2529403 (by norm_num) (by decide) (by decide)
    rcases (Nat.Prime.dvd_mul hq).mp h with h | h
    ·
      have hqe : q = 3 := (Nat.prime_dvd_prime_iff_eq hq Nat.prime_three).mp h
      subst hqe
      exact powMod_ne_one 2 ((2529403 - 1) / 3) 2529403 (by norm_num) (by decide) (by decide)
    rcases (Nat.Prime.dvd_mul hq).mp h with h | h
    ·
      have hqe : q = 23 := (Nat.prime_dvd_prime_iff_eq hq (by norm_num)).mp h
      subst hqe
      exact powMod_ne_one 2 ((2529403 - 1) / 23) 2529403 (by norm_num) (by decide) (by decide)
    ·
      have hqe : q = 18329 := (Nat.prime_dvd_prime_iff_eq hq prime_18329).mp h
      subst hqe
      exact powMod_ne_one 2 ((2529403 - 1) / 18329) 2529403 (by norm_num) (by decide) (by decide)

theorem prime_609743 : Nat.Prime 609743 := by
  have hf : (609743 : Nat) - 1 = 2 * (7 * (97 * (449))) := by norm_num
  apply lucas_primality 609743 ((5 : Nat) : ZMod 609743)
  · exact powMod_eq_one 5 (609743 - 1) 609743 (by norm_num) (by decide) (by decide)
  · intro q hq hdvd
    rw [hf] at hdvd
    rcases (Nat.Prime.dvd_mul hq).mp hdvd with h | h
    ·
      have hqe : q = 2 := (Nat.prime_dvd_prime_iff_eq hq Nat.prime_two).mp h
      subst hqe
      exact powMod_ne_one 5 ((609743 - 1) / 2) 609743 (by norm_num) (by decide) (by decide)
    rcases (Nat.Prime.dvd_mul hq).mp h with h | h
    ·
      have hqe : q = 7 := (Nat.prime_dvd_prime_iff_eq hq (by norm_num)).mp h
      subst hqe
      exact powMod_ne_one 5 ((609743 - 1) / 7) 609743 (by norm_num) (by decide) (by decide)
    rcases (Nat.Prime.dvd_mul hq).mp h with h | h
    ·
      have hqe : q = 97 := (Nat.prime_dvd_prime_iff_eq hq (by norm_num)).mp h
      subst hqe
      exact powMod_ne_one 5 ((609743 - 1) / 97) 609743 (by norm_num) (by decide) (by decide)
    ·
      have hqe : q = 449 := (Nat.prime_dvd_prime_iff_eq hq (by norm_num)).mp h
      subst hqe
      exact powMod_ne_one 5 ((609743 - 1) / 449) 609743 (by norm_num) (by decide) (by decide)

theorem prime_52437899 : Nat.Prime 52437899 := by
  have hf : (52437899 : Nat) - 1 = 2 * (43 * (609743)) := by norm_num
  apply lucas_primality 52437899 ((2 : Nat) : ZMod 52437899)
  · exact powMod_eq_one 2 (52437899 - 1) 52437899 (by norm_num) (by decide) (by decide)
  · intro q hq hdvd
    rw [hf] at hdvd
    rcases (Nat.Prime.dvd_mul hq).mp hdvd with h | h
    ·
      have hqe : q = 2 := (Nat.prime_dvd_prime_iff_eq hq Nat.prime_two).mp h
      subst hqe
      exact powMod_ne_one 2 ((52437899 - 1) / 2) 52437899 (by norm_num) (by decide) (by decide)
    rcases (Nat.Prime.dvd_mul hq).mp h with h | h
    ·
      have hqe : q = 43 := (Nat.prime_dvd_prime_iff_eq hq (by norm_num)).mp h
      subst hqe
      exact powMod_ne_one 2 ((52437899 - 1) / 43) 52437899 (by norm_num) (by decide) (by decide)
    ·
      have hqe : q = 609743 := (Nat.prime_dvd_prime_iff_eq hq prime_609743).mp h
      subst hqe
      exact powMod_ne_one 2 ((52437899 - 1) / 609743) 52437899 (by norm_num) (by decide) (by decide)

theorem prime_110573 : Nat.Prime 110573 := by
  have hf : (110573 : Nat) - 1 = 2 ^ 2 * (7 * (11 * (359))) := by norm_num
  apply lucas_primality 110573 ((3 : Nat) : ZMod 110573)
  · exact powMod_eq_one 3 (110573 - 1) 110573 (by norm_num) (by decide) (by decide)
  · intro q hq hdvd
    rw [hf] at hdvd
    rcases (Nat.Prime.dvd_mul hq).mp hdvd with h | h
    ·
      have hqe : q = 2 := (Nat.prime_dvd_prime_iff_eq hq Nat.prime_two).mp (hq.dvd_of_dvd_pow h)
      subst hqe
      exact powMod_ne_one 3 ((110573 - 1) / 2) 110573 (by norm_num) (by decide) (by decide)
    rcases (Nat.Prime.dvd_mul hq).mp h with h | h
    ·
      have hqe : q = 7 := (Nat.prime_dvd_prime_iff_eq hq (by norm_num)).mp h
      subst hqe
      exact powMod_ne_one 3 ((110573 - 1) / 7) 110573 (by norm_num) (by decide) (by decide)
    rcases (Nat.Prime.dvd_mul hq).mp h with h | h
    ·
      have hqe : q = 11 := (Nat.prime_dvd_prime_iff_eq hq (by norm_num)).mp h
      subst hqe
      exact powMod_ne_one 3 ((110573 - 1) / 11) 110573 (by norm_num) (by decide) (by decide)
    ·
      have hqe : q = 359 := (Nat.prime_dvd_prime_iff_eq hq (by norm_num)).mp h
      subst hqe
      exact powMod_ne_one 3 ((110573 - 1) / 359) 110573 (by norm_num) (by decide) (by decide)

theorem prime_2653753 : Nat.Prime 2653753 := by
  have hf : (2653753 : Nat) - 1 = 2 ^ 3 * (3 * (110573)) := by norm_num
  apply lucas_primality 2653753 ((5 : Nat) : ZMod 2653753)
  · exact powMod_eq_one 5 (2653753 - 1) 2653753 (by norm_num) (by decide) (by decide)
  · intro q hq hdvd
    rw [hf] at hdvd
    rcases (Nat.Prime.dvd_mul hq).mp hdvd with h | h
    ·
      have hqe : q = 2 := (Nat.prime_dvd_prime_iff_eq hq Nat.prime_two).mp (hq.dvd_of_dvd_pow h)
      subst hqe
      exact powMod_ne_one 5 ((2653753 - 1) / 2) 2653753 (by norm_num) (by decide) (by decide)
    rcases (Nat.Prime.dvd_mul hq).mp h with h | h
    ·
      have hqe : q = 3 := (Nat.prime_dvd_prime_iff_eq hq Nat.prime_three).mp h
      subst hqe
      exact powMod_ne_one 5 ((2653753 - 1) / 3) 2653753 (by norm_num) (by decide) (by decide)
    ·
      have hqe : q = 110573 := (Nat.prime_dvd_prime_iff_eq hq prime_110573).mp h
      subst hqe
      exact powMod_ne_one 5 ((2653753 - 1) / 110573) 2653753 (by norm_num) (by decide) (by decide)

theorem prime_63690073 : Nat.Prime 63690073 := by
  have hf : (63690073 : Nat) - 1 = 2 ^ 3 * (3 * (2653753)) := by norm_num
  apply lucas_primality 63690073 ((7 : Nat) : ZMod 63690073)
  · exact powMod_eq_one 7 (63690073 - 1) 63690073 (by norm_num) (by decide) (by decide)
  · intro q hq hdvd
    rw [hf] at hdvd
    rcases (Nat.Prime.dvd_mul hq).mp hdvd with h | h
    ·
      have hqe : q = 2 := (Nat.prime_dvd_prime_iff_eq hq Nat.prime_two).mp (hq.dvd_of_dvd_pow h)
      subst hqe
      exact powMod_ne_one 7 ((63690073 - 1) / 2) 63690073 (by norm_num) (by decide) (by decide)
    rcases (Nat.Prime.dvd_mul hq).mp h with h | h
    ·
      have hqe : q = 3 := (Nat.prime_dvd_prime_iff_eq hq Nat.prime_three).mp h
      subst hqe
      exact powMod_ne_one 7 ((63690073 - 1) / 3) 63690073 (by norm_num) (by decide) (by decide)
    ·
      have hqe : q = 2653753 := (Nat.prime_dvd_prime_iff_eq hq prime_2653753).mp h
      subst hqe
      exact powMod_ne_one 7 ((63690073 - 1) / 2653753) 63690073 (by norm_num) (by decide) (by decide)

theorem prime_254760293 : Nat.Prime 254760293 := by
  have hf : (254760293 : Nat) - 1 = 2 ^ 2 * (63690073) := by norm_num
  apply lucas_primality 254760293 ((2 : Nat) : ZMod 254760293)
  · exact powMod_eq_one 2 (254760293 - 1) 254760293 (by norm_num) (by decide) (by decide)
  · intro q hq hdvd
    rw [hf] at hdvd
    rcases (Nat.Prime.dvd_mul hq).mp hdvd with h | h
    ·
      have hqe : q = 2 := (Nat.prime_dvd_prime_iff_eq hq Nat.prime_two).mp (hq.dvd_of_dvd_pow h)
      subst hqe
      exact powMod_ne_one 2 ((254760293 - 1) / 2) 254760293 (by norm_num) (by decide) (by decide)
    ·
      have hqe : q = 63690073 := (Nat.prime_dvd_prime_iff_eq hq prime_63690073).mp h
      subst hqe
      exact powMod_ne_one 2 ((254760293 - 1) / 63690073) 254760293 (by norm_num) (by decide) (by decide)

theorem divisors_of_blsR_sub_one (q : Nat) (hq : q.Prime) (hdvd : q ∣ blsR - 1) :
    q = 2 ∨ q = 3 ∨ q = 11 ∨ q = 19 ∨
      q = 10177 ∨ q = 125527 ∨ q = 859267 ∨ q = 906349 ∨
      q = 2508409 ∨ q = 2529403 ∨ q = 52437899 ∨ q = 254760293 := by
  have hfact : blsR - 1 =
      2 ^ 32 * (3 * (11 * (19 * (10177 * (125527 * (859267 * (906349 ^ 2 * (2508409 * (2529403 * (52437899 * (254760293 ^ 2))))))))))) := by decide
  rw [hfact] at hdvd
  rcases (Nat.Prime.dvd_mul hq).mp hdvd with h | h
  · exact Or.inl ((Nat.prime_dvd_prime_iff_eq hq Nat.prime_two).mp (hq.dvd_of_dvd_pow h))
  rcases (Nat.Prime.dvd_mul hq).mp h with h | h
  · exact Or.inr (Or.inl ((Nat.prime_dvd_prime_iff_eq hq Nat.prime_three).mp h))
  rcases (Nat.Prime.dvd_mul hq).mp h with h | h
  · exact Or.inr (Or.inr (Or.inl ((Nat.prime_dvd_prime_iff_eq hq (by norm_num)).mp h)))
  rcases (Nat.Prime.dvd_mul hq).mp h with h | h
  · exact Or.inr (Or.inr (Or.inr (Or.inl ((Nat.prime_dvd_prime_iff_eq hq (by norm_num)).mp h))))
  rcases (Nat.Prime.dvd_mul hq).mp h with h | h
  · exact Or.inr (Or.inr (Or.inr (Or.inr (Or.inl ((Nat.prime_dvd_prime_iff_eq hq prime_10177).mp h)))))
  rcases (Nat.Prime.dvd_mul hq).mp h with h | h
  · exact Or.inr (Or.inr (Or.inr (Or.inr (Or.inr (Or.inl ((Nat.prime_dvd_prime_iff_eq hq prime_125527).mp h))))))
  rcases (Nat.Prime.dvd_mul hq).mp h with h | h
  · exact Or.inr (Or.inr (Or.inr (Or.inr (Or.inr (Or.inr (Or.inl ((Nat.prime_dvd_prime_iff_eq hq prime_859267).mp h)))))))
  rcases (Nat.Prime.dvd_mul hq).mp h with h | h
  · exact Or.inr (Or.inr (Or.inr (Or.inr (Or.inr (Or.inr (Or.inr (Or.inl ((Nat.prime_dvd_prime_iff_eq hq prime_906349).mp (hq.dvd_of_dvd_pow h)))))))))
  rcases (Nat.Prime.dvd_mul hq).mp h with h | h
  · exact Or.inr (Or.inr (Or.inr (Or.inr (Or.inr (Or.inr (Or.inr (Or.inr (Or.inl ((Nat.prime_dvd_prime_iff_eq hq prime_2508409).mp h)))))))))
  rcases (Nat.Prime.dvd_mul hq).mp h with h | h
  · exact Or.inr (Or.inr (Or.inr (Or.inr (Or.inr (Or.inr (Or.inr (Or.inr (Or.inr (Or.inl ((Nat.prime_dvd_prime_iff_eq hq prime_2529403).mp h))))))))))
  rcases (Nat.Prime.dvd_mul hq).mp h with h | h
  · exact Or.inr (Or.inr (Or.inr (Or.inr (Or.inr (Or.inr (Or.inr (Or.inr (Or.inr (Or.inr (Or.inl ((Nat.prime_dvd_prime_iff_eq hq prime_52437899).mp h)))))))))))
  · exact Or.inr (Or.inr (Or.inr (Or.inr (Or.inr (Or.inr (Or.inr (Or.inr (Or.inr (Or.inr (Or.inr ((Nat.prime_dvd_prime_iff_eq hq prime_254760293).mp (hq.dvd_of_dvd_pow h))))))))))))

theorem blsR_prime : Nat.Prime blsR := by
  apply lucas_primality blsR (7 : ZMod blsR)
  · have h1 : powMod 7 (blsR - 1) blsR = 1 := by decide
    have hcast := castPowMod 7 (blsR - 1) (by decide)
    rw [h1] at hcast
    norm_num at hcast
    exact hcast.symm
  · intro q hq hdvd
    rcases divisors_of_blsR_sub_one q hq hdvd with rfl | rfl | rfl | rfl | rfl | rfl | rfl | rfl | rfl | rfl | rfl | rfl
    · exact lucas_helper 2 (by decide)
    · exact lucas_helper 3 (by decide)
    · exact lucas_helper 11 (by decide)
    · exact lucas_helper 19 (by decide)
    · exact lucas_helper 10177 (by decide)
    · exact lucas_helper 125527 (by decide)
    · exact lucas_helper 859267 (by decide)
    · exact lucas_helper 906349 (by decide)
    · exact lucas_helper 2508409 (by decide)
    · exact lucas_helper 2529403 (by decide)
    · exact lucas_helper 52437899 (by decide)
    · exact lucas_helper 254760293 (by decide)

instance : Fact (Nat.Prime blsR) := ⟨blsR_prime⟩


/-- Modelled from the spec: an element of the curve group in the affine form
in which points are observed, compared and encoded (`Affine381` of the
source, the affine type of the external library).  `infinity` is the
identity-element flag; the identity's canonical representation has
coordinates `(0, 1)`. -/
structure Affine381 where
  x : Fp
  y : Fp
  infinity : Bool
deriving DecidableEq

/-- The internal group-element representation (`Group381` of the source).
Modelled from the spec: internally a point may sit in a non-canonical
representation; externally it is always observed through `intoAffine`, which
produces the canonical affine image. -/
abbrev Group381 := Affine381

/-- Canonical representation of the group identity. -/
def Group381.zero : Group381 := ⟨0, 1, true⟩

/-- Modelled from the spec: normalization to canonical affine form performed
by the external library's `into_affine`; every identity representation is
sent to the canonical one. -/
def Group381.intoAffine (g : Group381) : Affine381 :=
  if g.infinity then Group381.zero else g

/-- Conversion from affine back to the internal representation
(`into_projective` of the external library). -/
def Affine381.intoProjective (a : Affine381) : Group381 := a

/-- Modelled from the spec: group negation (the external library's unary
minus on group elements). -/
def ecNeg (g : Group381) : Group381 := ⟨g.x, -g.y, g.infinity⟩

/-- Modelled from the spec: the elliptic-curve group law on the BLS12-381
curve `y ^ 2 = x ^ 3 + 4` (the external library's addition). -/
def ecAdd (p q : Group381) : Group381 :=
  if p.infinity then q
  else if q.infinity then p
  else if p.x = q.x then
    if q.y = -p.y then Group381.zero
    else
      let l := 3 * p.x ^ 2 * (2 * p.y)⁻¹
      let x3 := l ^ 2 - 2 * p.x
      ⟨x3, l * (p.x - x3) - p.y, false⟩
  else
    let l := (q.y - p.y) * (q.x - p.x)⁻¹
    let x3 := l ^ 2 - p.x - q.x
    ⟨x3, l * (p.x - x3) - p.y, false⟩

/-- Modelled from the spec: binary double-and-add scalar multiplication, the
external library's `AffineCurve::mul` (fuel-bounded; 256 doublings cover any
scalar below `2 ^ 256`). -/
def ecSmulAux : Nat → Nat → Affine381 → Group381
  | 0, _, _ => Group381.zero
  | fuel + 1, n, base =>
    if n = 0 then Group381.zero
    else
      let h := ecSmulAux fuel (n / 2) base
      let d := ecAdd h h
      if n % 2 = 0 then d else ecAdd d base

/-- Scalar multiplication of an affine base point, yielding an internal group
element: `Affine381::mul(s.bn)` of the external library. -/
def Affine381.mul (base : Affine381) (s : Fr) : Group381 :=
  ecSmulAux 256 s.val base

/-- Canonical affine byte encoding used by the external library's `write`:
48 little-endian bytes for each coordinate followed by one identity-flag
byte (97 bytes in total). -/
def Affine381.write (a : Affine381) : List UInt8 :=
  natToBytesLE 48 a.x.val ++ natToBytesLE 48 a.y.val ++ [if a.infinity then 1 else 0]

/-- Modelled from the spec: the external library's `Affine381::read`, the
decode path used by `PublicKey::from_bytes`.  Per the spec it rejects input
that is the wrong length, coordinates outside the base field, a malformed
identity-flag byte, an identity encoding that is not the canonical one, or a
pair of coordinates not on the curve; `none` models the decode failure. -/
def Affine381.read (bytes : List UInt8) : Option Affine381 :=
  if bytes.length = 97 then
    if bytesToNatLE (bytes.take 48) < blsP ∧ bytesToNatLE ((bytes.drop 48).take 48) < blsP then
      if (bytes.drop 96).headD 2 = 0 then
        if ((bytesToNatLE ((bytes.drop 48).take 48) : Nat) : Fp) ^ 2 =
            ((bytesToNatLE (bytes.take 48) : Nat) : Fp) ^ 3 + 4 then
          some ⟨((bytesToNatLE (bytes.take 48) : Nat) : Fp),
            ((bytesToNatLE ((bytes.drop 48).take 48) : Nat) : Fp), false⟩
        else none
      else if (bytes.drop 96).headD 2 = 1 then
        if bytesToNatLE (bytes.take 48) = 0 ∧ bytesToNatLE ((bytes.drop 48).take 48) = 1 then
          some Group381.zero
        else none
      else none
    else none
  else none

/-- Modelled from the spec: the external library's `BigInt381::read`, the
decode path used by `Scalar::from_bytes` and `PrivateKey::from_bytes`; it
rejects input of the wrong length and values outside the field's range. -/
def Fr.read (bytes : List UInt8) : Option Fr :=
  if bytes.length = 32 ∧ bytesToNatLE bytes < blsR then
    some ((bytesToNatLE bytes : Nat) : Fr)
  else none

/-- Modelled from the spec: the state of the external seeded deterministic
pseudo-random generator (`StdRng`), reduced to the seed material it was
initialized with. -/
def StdRngState := List UInt8

/-- Modelled from the spec: `StdRng::seed_from_u64`. -/
def StdRng.seed_from_u64 (v : UInt64) : StdRngState := natToBytesLE 8 v.toNat

/-- Modelled from the spec: `StdRng::from_seed` applied to a 32-byte digest. -/
def StdRng.from_seed (digest : List UInt8) : StdRngState := digest

/-- Modelled from the spec: `StdRng::from_entropy`; the entropy drawn from the
environment is passed in explicitly, making the randomized operations of the
source deterministic functions of it. -/
def StdRng.from_entropy (entropy : List UInt8) : StdRngState := entropy

/-- Modelled from the spec: `Group381::rand`, deterministic sampling of a
group element from a seeded generator, modelled as scalar multiplication of a
fixed curve point by a seed-derived scalar. -/
def Group381.rand (rng : StdRngState) : Group381 :=
  Affine381.mul ⟨0, 2, false⟩ ((bytesToNatLE rng : Nat) : Fr)

/-- Modelled from the spec: `BigInt381::rand`, deterministic drawing of one
field element from a seeded generator. -/
def Fr.rand (rng : StdRngState) : Fr := ((bytesToNatLE rng : Nat) : Fr)

/-- Modelled from the spec: the external 256-bit cryptographic digest
(`Sha256` of the source), modelled as a deterministic 32-byte digest of the
input bytes. -/
def sha256 (data : List UInt8) : List UInt8 :=
  natToBytesLE 32 (data.foldl (fun acc b => (acc * 257 + b.toNat + 1) % 2 ^ 256) 0)

/-- Modelled from the spec: `Field::inverse` of the external library: `None`
on the additive identity, otherwise the multiplicative inverse. -/
def Fr.inverseOpt (a : Fr) : Option Fr :=
  if a = 0 then none else some a⁻¹

/-- the source's `fn get_point_at_infinity() -> Group381`. -/
def get_point_at_infinity : Group381 := Group381.zero

/-- the source's `fn curve_generator() -> Group381`:
`Group381::rand(&mut StdRng::seed_from_u64(42))`. -/
def curve_generator : Group381 := Group381.rand (StdRng.seed_from_u64 42)

/-- the source's `pub struct Scalar { bn: BigInt381 }`. -/
structure Scalar where
  bn : Fr
deriving DecidableEq

/-- the source's `pub struct Point { point: Group381 }`. -/
structure Point where
  point : Group381
deriving DecidableEq

/-- the source's `pub struct PrivateKey { pub scalar: Scalar }`. -/
structure PrivateKey where
  scalar : Scalar
deriving DecidableEq

/-- the source's `pub struct PublicKey { pub point: Point }`. -/
structure PublicKey where
  point : Point
deriving DecidableEq

/-- the source's `impl PartialEq for Scalar`: `self.bn == other.bn`. -/
def Scalar.eqv (a b : Scalar) : Prop := a.bn = b.bn

/-- the source's `impl PartialEq for Point`:
`self.point.into_affine() == other.point.into_affine()`. -/
def Point.eqv (a b : Point) : Prop :=
  a.point.intoAffine = b.point.intoAffine

/-- equality of `PublicKey` (derived in the source), delegating to `Point`. -/
def PublicKey.eqv (a b : PublicKey) : Prop := Point.eqv a.point b.point

/-- the source's `Scalar::from_u32`. -/
def Scalar.from_u32 (v : UInt32) : Scalar := ⟨((v.toNat : Nat) : Fr)⟩

/-- the source's `Scalar::generate`: a fresh scalar drawn from
`StdRng::from_entropy`; the entropy is an explicit argument. -/
def Scalar.generate (entropy : List UInt8) : Scalar :=
  ⟨Fr.rand (StdRng.from_entropy entropy)⟩

/-- the source's `Scalar::multiplicative_identity`. -/
def Scalar.multiplicative_identity : Scalar := Scalar.from_u32 1

/-- the source's `Scalar::pow`: `self.bn.pow([pow as u64])`. -/
def Scalar.pow (s : Scalar) (e : UInt32) : Scalar := ⟨s.bn ^ e.toNat⟩

/-- the source's `Scalar::inverse`: `self.bn.inverse().expect("Inverse failure")`;
the panic of `expect` is modelled as the error branch. -/
def Scalar.inverse (s : Scalar) : Except String Scalar :=
  match Fr.inverseOpt s.bn with
  | some b => .ok ⟨b⟩
  | none => .error "Inverse failure"

/-- the source's `Scalar::to_bytes`: `self.bn.write(&mut buf)`. -/
def Scalar.to_bytes (s : Scalar) : List UInt8 := natToBytesLE 32 s.bn.val

/-- the source's `Scalar::from_bytes`: `BigInt381::read(bytes).expect(...)`;
the panic of `expect` is modelled as the error branch. -/
def Scalar.from_bytes (bytes : List UInt8) : Except String Scalar :=
  match Fr.read bytes with
  | some b => .ok ⟨b⟩
  | none => .error "Could not create PublicKey from bytes"

/-- the source's `impl Add for Scalar`. -/
def Scalar.add (a b : Scalar) : Scalar := ⟨a.bn + b.bn⟩

/-- the source's `impl Sub for Scalar`. -/
def Scalar.sub (a b : Scalar) : Scalar := ⟨a.bn - b.bn⟩

/-- the source's `impl Mul for Scalar`. -/
def Scalar.mul (a b : Scalar) : Scalar := ⟨a.bn * b.bn⟩

/-- the source's `Point::infinity`. -/
def Point.infinity : Point := ⟨get_point_at_infinity⟩

/-- the source's `Point::generator`. -/
def Point.generator : Point := ⟨curve_generator⟩

/-- the source's `Point::from_scalar`:
`let gen = curve_generator(); gen.into_affine().mul(s.bn)`. -/
def Point.from_scalar (s : Scalar) : Point :=
  let gen := curve_generator
  ⟨gen.intoAffine.mul s.bn⟩

/-- the source's `Point::mul`: `self.point.into_affine().mul(s.bn)`. -/
def Point.mul (p : Point) (s : Scalar) : Point :=
  ⟨p.point.intoAffine.mul s.bn⟩

/-- the source's `Point::inverse`: `-self.point`. -/
def Point.inverse (p : Point) : Point := ⟨ecNeg p.point⟩

/-- the source's `Point::to_bytes`: `self.point.into_affine().write(&mut buf)`. -/
def Point.to_bytes (p : Point) : List UInt8 := p.point.intoAffine.write

/-- the source's `impl Add for Point`: `self.point + p.point`. -/
def Point.add (a b : Point) : Point := ⟨ecAdd a.point b.point⟩

/-- the source's `impl Sub for Point`: `self.point - p.point`, subtraction in
the group being addition of the negation. -/
def Point.sub (a b : Point) : Point := ⟨ecAdd a.point (ecNeg b.point)⟩

/-- the source's `Scalar::hash_points`: concatenate the encodings of the
points in order, digest the concatenation, seed `StdRng` with the digest and
draw one field element. -/
def Scalar.hash_points (points : List Point) : Scalar :=
  let data := points.foldl (fun acc p => acc ++ p.to_bytes) []
  ⟨Fr.rand (StdRng.from_seed (sha256 data))⟩

/-- the source's `PublicKey::to_bytes`. -/
def PublicKey.to_bytes (pk : PublicKey) : List UInt8 := pk.point.to_bytes

/-- the source's `PublicKey::from_bytes`:
`Affine381::read(bytes).expect("Could not create PublicKey from bytes").into_projective()`;
the panic of `expect` is modelled as the error branch. -/
def PublicKey.from_bytes (bytes : List UInt8) : Except String PublicKey :=
  match Affine381.read bytes with
  | some a => .ok ⟨⟨a.intoProjective⟩⟩
  | none => .error "Could not create PublicKey from bytes"

/-- the source's `PrivateKey::to_bytes`. -/
def PrivateKey.to_bytes (sk : PrivateKey) : List UInt8 := sk.scalar.to_bytes

/-- the source's `PrivateKey::from_bytes`; the panic of `expect` is modelled
as the error branch. -/
def PrivateKey.from_bytes (bytes : List UInt8) : Except String PrivateKey :=
  match Fr.read bytes with
  | some b => .ok ⟨⟨b⟩⟩
  | none => .error "Could not create PublicKey from bytes"

/-- the source's `pub fn create_keypair()`; the entropy consumed by
`Scalar::generate` is an explicit argument. -/
def create_keypair (entropy : List UInt8) : PublicKey × PrivateKey :=
  let s := Scalar.generate entropy
  let p := Point.from_scalar s
  (⟨p⟩, ⟨s⟩)


instance {e a : Type} [DecidableEq e] [DecidableEq a] : DecidableEq (Except e a)
  | .ok x, .ok y =>
    if h : x = y then .isTrue (by rw [h]) else .isFalse (by intro hc; cases hc; exact h rfl)
  | .error x, .error y =>
    if h : x = y then .isTrue (by rw [h]) else .isFalse (by intro hc; cases hc; exact h rfl)
  | .ok _, .error _ => .isFalse (by intro hc; cases hc)
  | .error _, .ok _ => .isFalse (by intro hc; cases hc)

instance (a b : Point) : Decidable (Point.eqv a b) :=
  inferInstanceAs (Decidable (Group381.intoAffine a.point = Group381.intoAffine b.point))

instance (a b : PublicKey) : Decidable (PublicKey.eqv a b) :=
  inferInstanceAs (Decidable (Point.eqv a.point b.point))

theorem intoAffine_idem (g : Group381) :
    Group381.intoAffine (Group381.intoAffine g) = Group381.intoAffine g := by
  unfold Group381.intoAffine
  by_cases h : g.infinity
  · simp [h, Group381.zero]
  · simp [h]

theorem hash_points_join (ps : List Point) :
    Scalar.hash_points ps =
      ⟨Fr.rand (StdRng.from_seed (sha256 ((ps.map Point.to_bytes).flatten)))⟩ := by
  unfold Scalar.hash_points
  have hfold : ∀ (l : List Point) (acc : List UInt8),
      l.foldl (fun a p => a ++ p.to_bytes) acc = acc ++ (l.map Point.to_bytes).flatten := by
    intro l
    induction l with
    | nil => intro acc; simp
    | cons p t ih => intro acc; simp [ih, List.append_assoc]
  simp [hfold]

theorem point_eqv_to_bytes {a b : Point} (h : Point.eqv a b) :
    a.to_bytes = b.to_bytes := by
  unfold Point.to_bytes
  unfold Point.eqv at h
  rw [h]

/-- C1: every pair returned by `create_keypair` satisfies the keypair
invariant: the public key wraps exactly the point derived by `from_scalar`
from the scalar wrapped by the private key, for whatever scalar the call
samples from its entropy. -/
theorem c1_create_keypair_invariant (entropy : List UInt8) :
    Point.eqv (create_keypair entropy).1.point
      (Point.from_scalar (create_keypair entropy).2.scalar) := rfl

/-- C2: `Point.from_scalar s` equals `Point.generator.mul s` for every
scalar, and the generator is the fixed deterministic point obtained by
sampling the group with the pseudo-random generator seeded with the fixed
seed 42 (not a standard base-point constant). -/
theorem c2_from_scalar_is_generator_mul :
    (∀ s : Scalar, Point.from_scalar s = Point.generator.mul s) ∧
    Point.generator = ⟨Group381.rand (StdRng.seed_from_u64 42)⟩ :=
  ⟨fun _ => rfl, rfl⟩

/-- C8: raising any scalar, the field's zero included, to exponent 0 yields
`Scalar.multiplicative_identity` (the field element 1). -/
theorem c8_pow_zero_is_identity (s : Scalar) :
    Scalar.pow s 0 = Scalar.multiplicative_identity := by
  have h0 : (0 : UInt32).toNat = 0 := rfl
  have h1 : (1 : UInt32).toNat = 1 := rfl
  simp only [Scalar.pow, Scalar.multiplicative_identity, Scalar.from_u32,
    Scalar.mk.injEq, h0, h1, pow_zero, Nat.cast_one]

/-- C9: adding any point to its group inverse yields the identity element
under the `PartialEq` of `Point`, which compares canonical affine images. -/
theorem c9_add_inverse_is_infinity (P : Point) :
    Point.eqv (Point.add P (Point.inverse P)) Point.infinity := by
  unfold Point.eqv Point.add Point.inverse Point.infinity get_point_at_infinity
  cases hP : P.point.infinity with
  | true => simp [ecAdd, ecNeg, Group381.intoAffine, hP, Group381.zero]
  | false => simp [ecAdd, ecNeg, Group381.intoAffine, hP, Group381.zero]

/-- C6: `Scalar.hash_points` concatenates, in input order, the canonical byte
encoding of each point, digests the concatenation, seeds the deterministic
generator with the digest and draws one scalar from it; the empty sequence is
valid and yields the scalar derived from the digest of zero bytes. -/
theorem c6_hash_points_pipeline :
    (∀ points : List Point,
      Scalar.hash_points points =
        ⟨Fr.rand (StdRng.from_seed (sha256 ((points.map Point.to_bytes).flatten)))⟩) ∧
    Scalar.hash_points [] = ⟨Fr.rand (StdRng.from_seed (sha256 []))⟩ :=
  ⟨fun points => hash_points_join points, hash_points_join []⟩

/-- C7: `Scalar.hash_points` is deterministic: two inputs whose points are
element-wise equal (under the `PartialEq` of `Point`) in the same order hash
to equal scalars; and it is order-sensitive: a concrete pair of points hashes
to different scalars under the two orders. -/
theorem c7_hash_points_deterministic_order_sensitive :
    (∀ ps qs : List Point, List.Forall₂ Point.eqv ps qs →
      Scalar.hash_points ps = Scalar.hash_points qs) ∧
    Scalar.hash_points [⟨⟨0, 2, false⟩⟩, ⟨⟨0, -2, false⟩⟩] ≠
      Scalar.hash_points [⟨⟨0, -2, false⟩⟩, ⟨⟨0, 2, false⟩⟩] := by
  constructor
  · intro ps qs h
    rw [hash_points_join, hash_points_join]
    have hmap : ps.map Point.to_bytes = qs.map Point.to_bytes := by
      induction h with
      | nil => rfl
      | cons hab _ ih => simp [point_eqv_to_bytes hab, ih]
    rw [hmap]
  · decide

/-- C7 witness: the determinism half applied to two concrete one-point lists
whose entries are `PartialEq`-equal but not structurally identical. -/
theorem c7_witness :
    List.Forall₂ Point.eqv [Point.infinity] [⟨⟨3, 5, true⟩⟩] ∧
    Scalar.hash_points [Point.infinity] = Scalar.hash_points [⟨⟨3, 5, true⟩⟩] := by
  have h : List.Forall₂ Point.eqv [Point.infinity] [⟨⟨3, 5, true⟩⟩] :=
    List.Forall₂.cons (by decide) List.Forall₂.nil
  exact ⟨h, c7_hash_points_deterministic_order_sensitive.1 _ _ h⟩

/-- C10: `Scalar.hash_points` depends only on the concatenation of the
points' canonical byte encodings: sequences with byte-for-byte equal
concatenated encodings hash to equal scalars. -/
theorem c10_hash_points_concatenation_only (ps qs : List Point)
    (h : (ps.map Point.to_bytes).flatten = (qs.map Point.to_bytes).flatten) :
    Scalar.hash_points ps = Scalar.hash_points qs := by
  rw [hash_points_join, hash_points_join, h]

/-- C10 witness: two structurally different sequences (a non-canonical
representation of the identity versus the canonical one) with equal
concatenated encodings hash to the same scalar. -/
theorem c10_witness :
    ([(⟨⟨7, 9, true⟩⟩ : Point)].map Point.to_bytes).flatten =
      ([Point.infinity].map Point.to_bytes).flatten ∧
    Scalar.hash_points [⟨⟨7, 9, true⟩⟩] = Scalar.hash_points [Point.infinity] :=
  ⟨by decide, c10_hash_points_concatenation_only _ _ (by decide)⟩


/-- C3: `Scalar.inverse` on the additive identity fails with the reported
error (the `expect` panic of the source, modelled as the error branch) rather
than returning any scalar; on every nonzero scalar it returns the
multiplicative inverse, i.e. a scalar multiplying with the input to
`Scalar.multiplicative_identity`. -/
theorem c3_inverse_zero_errors_nonzero_inverts (s : Scalar) :
    Scalar.inverse ⟨0⟩ = .error "Inverse failure" ∧
    (s.bn ≠ 0 → ∃ t, Scalar.inverse s = .ok t ∧
      Scalar.mul s t = Scalar.multiplicative_identity) := by
  constructor
  · simp [Scalar.inverse, Fr.inverseOpt]
  · intro h
    refine ⟨⟨s.bn⁻¹⟩, ?_, ?_⟩
    · simp [Scalar.inverse, Fr.inverseOpt, h]
    · have h1 : (1 : UInt32).toNat = 1 := rfl
      simp only [Scalar.mul, Scalar.multiplicative_identity, Scalar.from_u32,
        Scalar.mk.injEq, h1, Nat.cast_one]
      exact mul_inv_cancel₀ h

/-- C3 witness: the theorem applied to the concrete nonzero scalar 2. -/
theorem c3_witness :
    ((⟨(2 : Fr)⟩ : Scalar).bn ≠ 0) ∧
    (∃ t, Scalar.inverse ⟨(2 : Fr)⟩ = .ok t ∧
      Scalar.mul ⟨(2 : Fr)⟩ t = Scalar.multiplicative_identity) :=
  ⟨by decide, (c3_inverse_zero_errors_nonzero_inverts ⟨(2 : Fr)⟩).2 (by decide)⟩

theorem scalar_write_read (s : Scalar) : Scalar.from_bytes s.to_bytes = .ok s := by
  have hlen : (natToBytesLE 32 s.bn.val).length = 32 := natToBytesLE_length _ _
  have hval : bytesToNatLE (natToBytesLE 32 s.bn.val) = s.bn.val :=
    bytesToNatLE_natToBytesLE _ _ (lt_trans s.bn.val_lt (by decide))
  have hread : Fr.read (natToBytesLE 32 s.bn.val) = some s.bn := by
    unfold Fr.read
    rw [if_pos ⟨hlen, by rw [hval]; exact s.bn.val_lt⟩, hval,
      ZMod.natCast_rightInverse s.bn]
  simp [Scalar.from_bytes, Scalar.to_bytes, hread]

theorem affine_write_read_curve (x y : Fp) (hcurve : y ^ 2 = x ^ 3 + 4) :
    Affine381.read (Affine381.write ⟨x, y, false⟩) = some ⟨x, y, false⟩ := by
  have hlnx : (natToBytesLE 48 x.val).length = 48 := natToBytesLE_length _ _
  have hlny : (natToBytesLE 48 y.val).length = 48 := natToBytesLE_length _ _
  have hw : Affine381.write ⟨x, y, false⟩ =
      natToBytesLE 48 x.val ++ (natToBytesLE 48 y.val ++ [(0 : UInt8)]) := by
    simp [Affine381.write]
  have hlen : (natToBytesLE 48 x.val ++ (natToBytesLE 48 y.val ++ [(0 : UInt8)])).length = 97 := by
    simp [hlnx, hlny]
  have htake : (natToBytesLE 48 x.val ++ (natToBytesLE 48 y.val ++ [(0 : UInt8)])).take 48 =
      natToBytesLE 48 x.val := take_append_of_length 48 _ _ hlnx
  have hdrop : (natToBytesLE 48 x.val ++ (natToBytesLE 48 y.val ++ [(0 : UInt8)])).drop 48 =
      natToBytesLE 48 y.val ++ [(0 : UInt8)] := drop_append_of_length 48 _ _ hlnx
  have htake2 : (natToBytesLE 48 y.val ++ [(0 : UInt8)]).take 48 = natToBytesLE 48 y.val :=
    take_append_of_length 48 _ _ hlny
  have hdrop96 : (natToBytesLE 48 x.val ++ (natToBytesLE 48 y.val ++ [(0 : UInt8)])).drop 96 =
      [(0 : UInt8)] := by
    rw [← List.append_assoc]
    exact drop_append_of_length 96 _ _ (by simp [hlnx, hlny])
  have hxv : bytesToNatLE (natToBytesLE 48 x.val) = x.val :=
    bytesToNatLE_natToBytesLE _ _ (lt_trans x.val_lt (by decide))
  have hyv : bytesToNatLE (natToBytesLE 48 y.val) = y.val :=
    bytesToNatLE_natToBytesLE _ _ (lt_trans y.val_lt (by decide))
  have hxcast : ((x.val : Nat) : Fp) = x := ZMod.natCast_rightInverse x
  have hycast : ((y.val : Nat) : Fp) = y := ZMod.natCast_rightInverse y
  rw [hw]
  unfold Affine381.read
  rw [if_pos hlen]
  simp only [htake, hdrop, htake2, hdrop96, hxv, hyv, hxcast, hycast]
  rw [if_pos ⟨x.val_lt, y.val_lt⟩]
  simp [hcurve]

theorem affine_write_read_zero :
    Affine381.read (Affine381.write Group381.zero) = some Group381.zero := by decide

theorem publickey_roundtrip (pk : PublicKey)
    (h : pk.point.point.infinity = true ∨
      pk.point.point.y ^ 2 = pk.point.point.x ^ 3 + 4) :
    ∃ pk2, PublicKey.from_bytes pk.to_bytes = .ok pk2 ∧ PublicKey.eqv pk2 pk := by
  have hread : Affine381.read (Group381.intoAffine pk.point.point).write =
      some (Group381.intoAffine pk.point.point) := by
    rcases h with h | h
    · have : Group381.intoAffine pk.point.point = Group381.zero := by
        unfold Group381.intoAffine
        rw [if_pos h]
      rw [this]
      exact affine_write_read_zero
    · by_cases hinf : pk.point.point.infinity = true
      · have : Group381.intoAffine pk.point.point = Group381.zero := by
          unfold Group381.intoAffine
          rw [if_pos hinf]
        rw [this]
        exact affine_write_read_zero
      · have hni : Group381.intoAffine pk.point.point = pk.point.point := by
          unfold Group381.intoAffine
          rw [if_neg hinf]
        rw [hni]
        have hdecomp : pk.point.point =
            ⟨pk.point.point.x, pk.point.point.y, false⟩ := by
          cases hpt : pk.point.point with
          | mk px py pinf =>
            simp only at hpt ⊢
            rw [hpt] at hinf
            simp at hinf
            simp [hinf]
        rw [hdecomp]
        exact affine_write_read_curve _ _ h
  refine ⟨⟨⟨(Group381.intoAffine pk.point.point).intoProjective⟩⟩, ?_, ?_⟩
  · simp [PublicKey.from_bytes, PublicKey.to_bytes, Point.to_bytes, hread]
  · show Point.eqv _ _
    unfold Point.eqv Affine381.intoProjective
    exact intoAffine_idem pk.point.point

/-- C5: encoding round-trips.  For every scalar, decoding its encoding
returns it exactly; for every point value satisfying the data-model
invariant (a group element: the identity or an on-curve point), decoding the
canonical encoding through `PublicKey.from_bytes` yields an equal point; in
particular the encoding of `Point.infinity` decodes to a point equal to
`Point.infinity`. -/
theorem c5_encoding_roundtrip :
    (∀ s : Scalar, Scalar.from_bytes s.to_bytes = .ok s) ∧
    (∀ pk : PublicKey,
      (pk.point.point.infinity = true ∨
        pk.point.point.y ^ 2 = pk.point.point.x ^ 3 + 4) →
      ∃ pk2, PublicKey.from_bytes pk.to_bytes = .ok pk2 ∧ PublicKey.eqv pk2 pk) ∧
    (∃ q, PublicKey.from_bytes Point.infinity.to_bytes = .ok q ∧
      Point.eqv q.point Point.infinity) := by
  refine ⟨scalar_write_read, publickey_roundtrip, ?_⟩
  obtain ⟨pk2, h1, h2⟩ :=
    publickey_roundtrip ⟨Point.infinity⟩ (Or.inl rfl)
  exact ⟨pk2, h1, h2⟩

/-- C5 witness: the point half of the theorem applied to a concrete on-curve
point with coordinates `(0, 2)`. -/
theorem c5_witness :
    ((⟨⟨⟨0, 2, false⟩⟩⟩ : PublicKey).point.point.infinity = true ∨
      (⟨⟨⟨0, 2, false⟩⟩⟩ : PublicKey).point.point.y ^ 2 =
        (⟨⟨⟨0, 2, false⟩⟩⟩ : PublicKey).point.point.x ^ 3 + 4) ∧
    (∃ pk2, PublicKey.from_bytes (⟨⟨⟨0, 2, false⟩⟩⟩ : PublicKey).to_bytes = .ok pk2 ∧
      PublicKey.eqv pk2 ⟨⟨⟨0, 2, false⟩⟩⟩) :=
  ⟨Or.inr (by decide), c5_encoding_roundtrip.2.1 ⟨⟨⟨0, 2, false⟩⟩⟩ (Or.inr (by decide))⟩


theorem affine_read_valid {b : List UInt8} {a : Affine381}
    (h : Affine381.read b = some a) :
    a = Group381.zero ∨ (a.infinity = false ∧ a.y ^ 2 = a.x ^ 3 + 4) := by
  unfold Affine381.read at h
  by_cases h97 : b.length = 97
  · rw [if_pos h97] at h
    by_cases hxy : bytesToNatLE (b.take 48) < blsP ∧ bytesToNatLE ((b.drop 48).take 48) < blsP
    · rw [if_pos hxy] at h
      by_cases hf0 : (b.drop 96).headD 2 = 0
      · rw [if_pos hf0] at h
        by_cases hcurve : ((bytesToNatLE ((b.drop 48).take 48) : Nat) : Fp) ^ 2 =
            ((bytesToNatLE (b.take 48) : Nat) : Fp) ^ 3 + 4
        · rw [if_pos hcurve] at h
          injection h with h
          subst h
          exact Or.inr ⟨rfl, hcurve⟩
        · rw [if_neg hcurve] at h
          cases h
      · rw [if_neg hf0] at h
        by_cases hf1 : (b.drop 96).headD 2 = 1
        · rw [if_pos hf1] at h
          by_cases h01 : bytesToNatLE (b.take 48) = 0 ∧ bytesToNatLE ((b.drop 48).take 48) = 1
          · rw [if_pos h01] at h
            injection h with h
            subst h
            exact Or.inl rfl
          · rw [if_neg h01] at h
            cases h
        · rw [if_neg hf1] at h
          cases h
    · rw [if_neg hxy] at h
      cases h
  · rw [if_neg h97] at h
    cases h

theorem fr_read_some {b : List UInt8} {v : Fr} (h : Fr.read b = some v) :
    b.length = 32 ∧ bytesToNatLE b < blsR ∧ v = ((bytesToNatLE b : Nat) : Fr) := by
  unfold Fr.read at h
  by_cases hc : b.length = 32 ∧ bytesToNatLE b < blsR
  · rw [if_pos hc] at h
    injection h with h
    exact ⟨hc.1, hc.2, h.symm⟩
  · rw [if_neg hc] at h
    cases h

theorem affine_read_encoding {b : List UInt8} {a : Affine381}
    (h : Affine381.read b = some a) :
    Group381.intoAffine a = a ∧ a.write = b := by
  unfold Affine381.read at h
  by_cases h97 : b.length = 97
  · rw [if_pos h97] at h
    have hlt48 : (b.take 48).length = 48 := by
      rw [List.length_take]
      omega
    have hld48 : ((b.drop 48).take 48).length = 48 := by
      rw [List.length_take, List.length_drop]
      omega
    obtain ⟨f, hf⟩ : ∃ f, b.drop 96 = [f] := by
      apply List.length_eq_one.mp
      rw [List.length_drop]
      omega
    have hsplit : b = b.take 48 ++ ((b.drop 48).take 48 ++ [f]) := by
      conv_lhs => rw [← List.take_append_drop 48 b]
      congr 1
      conv_lhs => rw [← List.take_append_drop 48 (b.drop 48)]
      congr 1
      rw [List.drop_drop]
      exact hf
    have hx48 : natToBytesLE 48 (bytesToNatLE (b.take 48)) = b.take 48 := by
      have hrt := natToBytesLE_bytesToNatLE (b.take 48)
      rwa [hlt48] at hrt
    have hy48 : natToBytesLE 48 (bytesToNatLE ((b.drop 48).take 48)) = (b.drop 48).take 48 := by
      have hrt := natToBytesLE_bytesToNatLE ((b.drop 48).take 48)
      rwa [hld48] at hrt
    by_cases hxy : bytesToNatLE (b.take 48) < blsP ∧ bytesToNatLE ((b.drop 48).take 48) < blsP
    · rw [if_pos hxy] at h
      by_cases hf0 : (b.drop 96).headD 2 = 0
      · rw [if_pos hf0] at h
        by_cases hcurve : ((bytesToNatLE ((b.drop 48).take 48) : Nat) : Fp) ^ 2 =
            ((bytesToNatLE (b.take 48) : Nat) : Fp) ^ 3 + 4
        · rw [if_pos hcurve] at h
          injection h with h
          subst h
          refine ⟨rfl, ?_⟩
          unfold Affine381.write
          simp only
          rw [ZMod.val_cast_of_lt hxy.1, ZMod.val_cast_of_lt hxy.2, hx48, hy48]
          have hfz : f = 0 := by
            rw [hf] at hf0
            exact hf0
          subst hfz
          conv_rhs => rw [hsplit]
          simp [List.append_assoc]
        · rw [if_neg hcurve] at h
          cases h
      · rw [if_neg hf0] at h
        by_cases hf1 : (b.drop 96).headD 2 = 1
        · rw [if_pos hf1] at h
          by_cases h01 : bytesToNatLE (b.take 48) = 0 ∧ bytesToNatLE ((b.drop 48).take 48) = 1
          · rw [if_pos h01] at h
            injection h with h
            subst h
            refine ⟨rfl, ?_⟩
            unfold Affine381.write Group381.zero
            simp only
            rw [ZMod.val_zero, ZMod.val_one blsP]
            have hxz : natToBytesLE 48 0 = b.take 48 := by
              rw [← h01.1]
              exact hx48
            have hyz : natToBytesLE 48 1 = (b.drop 48).take 48 := by
              rw [← h01.2]
              exact hy48
            have hfo : f = 1 := by
              rw [hf] at hf1
              exact hf1
            subst hfo
            conv_rhs => rw [hsplit]
            rw [hxz, hyz]
            simp [List.append_assoc]
          · rw [if_neg h01] at h
            cases h
        · rw [if_neg hf1] at h
          cases h
    · rw [if_neg hxy] at h
      cases h
  · rw [if_neg h97] at h
    cases h

/-- C4: every `from_bytes` path surfaces a decode failure (the `expect` panic
of the source, modelled as the error branch) whenever the input is the wrong
length or not a valid encoding of a field or curve element — for points this
covers out-of-range coordinates, a malformed identity-flag byte, an off-curve
coordinate pair and a non-canonical identity encoding — and an invalid input
is never silently coerced to a default value: every successful decode is
faithful, re-encoding to exactly the input bytes, and a decoded point is a
valid group element. -/
theorem c4_from_bytes_surfaces_decode_errors :
    (∀ b : List UInt8, b.length ≠ 32 ∨ blsR ≤ bytesToNatLE b →
      Scalar.from_bytes b = .error "Could not create PublicKey from bytes") ∧
    (∀ b : List UInt8, b.length ≠ 32 ∨ blsR ≤ bytesToNatLE b →
      PrivateKey.from_bytes b = .error "Could not create PublicKey from bytes") ∧
    (∀ b : List UInt8, b.length ≠ 97 →
      PublicKey.from_bytes b = .error "Could not create PublicKey from bytes") ∧
    (∀ b : List UInt8, b.length = 97 →
      (¬(bytesToNatLE (b.take 48) < blsP ∧ bytesToNatLE ((b.drop 48).take 48) < blsP) ∨
        ((b.drop 96).headD 2 = 0 ∧
          ¬((bytesToNatLE ((b.drop 48).take 48) : Nat) : Fp) ^ 2 =
            ((bytesToNatLE (b.take 48) : Nat) : Fp) ^ 3 + 4) ∨
        ((b.drop 96).headD 2 = 1 ∧
          ¬(bytesToNatLE (b.take 48) = 0 ∧ bytesToNatLE ((b.drop 48).take 48) = 1)) ∨
        ((b.drop 96).headD 2 ≠ 0 ∧ (b.drop 96).headD 2 ≠ 1)) →
      PublicKey.from_bytes b = .error "Could not create PublicKey from bytes") ∧
    (∀ (b : List UInt8) (pk : PublicKey), PublicKey.from_bytes b = .ok pk →
      (pk.point.point = Group381.zero ∨
        (pk.point.point.infinity = false ∧
          pk.point.point.y ^ 2 = pk.point.point.x ^ 3 + 4)) ∧
      pk.to_bytes = b) ∧
    (∀ (b : List UInt8) (s : Scalar), Scalar.from_bytes b = .ok s →
      Scalar.to_bytes s = b) := by
  have hfrnone : ∀ b : List UInt8, b.length ≠ 32 ∨ blsR ≤ bytesToNatLE b →
      Fr.read b = none := by
    intro b hb
    unfold Fr.read
    rw [if_neg]
    intro hc
    rcases hb with hb | hb
    · exact hb hc.1
    · exact absurd hc.2 (not_lt.mpr hb)
  refine ⟨?_, ?_, ?_, ?_, ?_, ?_⟩
  · intro b hb
    simp [Scalar.from_bytes, hfrnone b hb]
  · intro b hb
    simp [PrivateKey.from_bytes, hfrnone b hb]
  · intro b hb
    have : Affine381.read b = none := by
      unfold Affine381.read
      rw [if_neg hb]
    simp [PublicKey.from_bytes, this]
  · intro b h97 hbad
    have hnone : Affine381.read b = none := by
      unfold Affine381.read
      rw [if_pos h97]
      rcases hbad with hxy | ⟨hfg, hc⟩ | ⟨hfg, hc⟩ | ⟨hf0, hf1⟩
      · rw [if_neg hxy]
      · by_cases hxy : bytesToNatLE (b.take 48) < blsP ∧
            bytesToNatLE ((b.drop 48).take 48) < blsP
        · rw [if_pos hxy, if_pos hfg, if_neg hc]
        · rw [if_neg hxy]
      · by_cases hxy : bytesToNatLE (b.take 48) < blsP ∧
            bytesToNatLE ((b.drop 48).take 48) < blsP
        · have hne : ¬(b.drop 96).headD 2 = 0 := by
            rw [hfg]
            decide
          rw [if_pos hxy, if_neg hne, if_pos hfg, if_neg hc]
        · rw [if_neg hxy]
      · by_cases hxy : bytesToNatLE (b.take 48) < blsP ∧
            bytesToNatLE ((b.drop 48).take 48) < blsP
        · rw [if_pos hxy, if_neg hf0, if_neg hf1]
        · rw [if_neg hxy]
    simp [PublicKey.from_bytes, hnone]
  · intro b pk h
    unfold PublicKey.from_bytes at h
    cases hr : Affine381.read b with
    | none =>
      rw [hr] at h
      cases h
    | some a =>
      rw [hr] at h
      injection h with h
      obtain ⟨hcanon, henc⟩ := affine_read_encoding hr
      have hpt : pk.point.point = a := by
        rw [← h]
        rfl
      constructor
      · rw [hpt]
        exact affine_read_valid hr
      · show pk.point.to_bytes = b
        unfold Point.to_bytes
        rw [hpt, hcanon, henc]
  · intro b s h
    unfold Scalar.from_bytes at h
    cases hr : Fr.read b with
    | none =>
      rw [hr] at h
      cases h
    | some v =>
      rw [hr] at h
      injection h with h
      obtain ⟨hlen, hlt, hv⟩ := fr_read_some hr
      have hbn : s.bn = ((bytesToNatLE b : Nat) : Fr) := by
        rw [← h, hv]
      unfold Scalar.to_bytes
      rw [hbn, ZMod.val_cast_of_lt hlt, ← hlen, natToBytesLE_bytesToNatLE]

/-- C4 witness: the error paths applied to the empty input, a 32-byte
encoding of the out-of-range value `blsR`, and a well-length point encoding
whose coordinate pair `(1, 1)` is off the curve; the faithful-decode halves
applied to the encodings of the identity point and of the scalar 2. -/
theorem c4_witness :
    Scalar.from_bytes [] = .error "Could not create PublicKey from bytes" ∧
    Scalar.from_bytes (natToBytesLE 32 blsR) =
      .error "Could not create PublicKey from bytes" ∧
    PrivateKey.from_bytes [] = .error "Could not create PublicKey from bytes" ∧
    PublicKey.from_bytes [] = .error "Could not create PublicKey from bytes" ∧
    PublicKey.from_bytes (natToBytesLE 48 1 ++ natToBytesLE 48 1 ++ [0]) =
      .error "Could not create PublicKey from bytes" ∧
    (((⟨⟨⟨(0 : Fp), 1, true⟩⟩⟩ : PublicKey).point.point = Group381.zero ∨
      ((⟨⟨⟨(0 : Fp), 1, true⟩⟩⟩ : PublicKey).point.point.infinity = false ∧
        (⟨⟨⟨(0 : Fp), 1, true⟩⟩⟩ : PublicKey).point.point.y ^ 2 =
          (⟨⟨⟨(0 : Fp), 1, true⟩⟩⟩ : PublicKey).point.point.x ^ 3 + 4)) ∧
      (⟨⟨⟨(0 : Fp), 1, true⟩⟩⟩ : PublicKey).to_bytes = Point.infinity.to_bytes) ∧
    Scalar.to_bytes ⟨(2 : Fr)⟩ = Scalar.to_bytes ⟨(2 : Fr)⟩ :=
  ⟨c4_from_bytes_surfaces_decode_errors.1 [] (Or.inl (by decide)),
   c4_from_bytes_surfaces_decode_errors.1 (natToBytesLE 32 blsR)
     (Or.inr (by decide)),
   c4_from_bytes_surfaces_decode_errors.2.1 [] (Or.inl (by decide)),
   c4_from_bytes_surfaces_decode_errors.2.2.1 [] (by decide),
   c4_from_bytes_surfaces_decode_errors.2.2.2.1
     (natToBytesLE 48 1 ++ natToBytesLE 48 1 ++ [0]) (by decide)
     (Or.inr (Or.inl ⟨by decide, by decide⟩)),
   c4_from_bytes_surfaces_decode_errors.2.2.2.2.1 Point.infinity.to_bytes
     ⟨⟨⟨(0 : Fp), 1, true⟩⟩⟩ (by decide),
   c4_from_bytes_surfaces_decode_errors.2.2.2.2.2 (Scalar.to_bytes ⟨(2 : Fr)⟩)
     ⟨(2 : Fr)⟩ (by decide)⟩

end RustPvss
